import Mathlib

set_option linter.unusedVariables false

/-! Verification development for the Tong language front end: the lexer
(src/src/lexer.rs), the recursive-descent parser (src/src/parser.rs) and the
token-collection loop of the driver (src/src/main.rs).  The lexer is embedded
as a function on the remaining character list; the parser, whose source can
genuinely diverge, is embedded fuel-indexed. -/

/-- Token categories, from the TokenType enum in src/src/lexer.rs.  The last
constructor, Import, does not occur in that enum; it is referenced by
parse_statement in src/src/parser.rs.  Modelled from the spec: the keyword
list of section 4.1 step 7 contains an import keyword, so the category is
carried here; the embedded lexer below never produces it, faithful to the
keyword table actually present in src/src/lexer.rs. -/
inductive TokenType where
  | Num | Str | True | False | Iden
  | Char
  | Ui8 | Ui16 | Ui32 | Ui64 | Ii64
  | Bool | Ii8 | Ii16 | Ii32
  | Fi32 | Tensor | Const
  | Add | Sub | Mul | Div | Mod
  | Equ | Dot
  | Eqv | Gre | Les | Geq | Leq
  | And | Or | Bor | Band | Lsh
  | Rsh | As
  | Osq | Csq | Opt | Cpt | Ocl
  | Ccl | Scln | Com | Qt
  | Let | If | Elif | Else | Func
  | Return | Break | Loop
  | Slash | NewLine | Eof
  | Import
deriving DecidableEq

/-- A token, from the Token struct in src/src/lexer.rs (fields ttype and
value).  Modelled from the spec: the line_num field.  The parser in
src/src/parser.rs reads token.line_num and main.rs threads a mutable line
counter through the lexer, but the Token struct in src/src/lexer.rs has no
such field; per spec section 3 a token records the source line on which it
starts, the count of newlines skipped so far (the driver starts the counter
at 0). -/
structure Token where
  ttype : TokenType
  value : String
  line_num : Nat
deriving DecidableEq

/-- Keyword lookup from the identifier branch of lex, src/src/lexer.rs lines
197 to 218.  The table has no entry for the word import: it lexes as a plain
identifier. -/
def keywordType (val : String) : TokenType :=
  if val = "loop" then .Loop
  else if val = "if" then .If
  else if val = "elif" then .Elif
  else if val = "else" then .Else
  else if val = "true" then .True
  else if val = "false" then .False
  else if val = "break" then .Break
  else if val = "return" then .Return
  else if val = "fn" then .Func
  else if val = "and" then .And
  else if val = "or" then .Or
  else if val = "let" then .Let
  else if val = "i8" then .Ii8
  else if val = "i16" then .Ii16
  else if val = "i32" then .Ii32
  else if val = "i64" then .Ii64
  else if val = "f32" then .Fi32
  else if val = "const" then .Const
  else if val = "tensor" then .Tensor
  else .Iden

/-- The string-literal scan of lex, src/src/lexer.rs lines 109 to 140,
entered just after the opening quote.  Returns the unescaped literal and the
characters remaining after the scan; none is the lexical failure (Rust None)
raised for a backslash at end of buffer or an unsupported escape.  When the
buffer ends before a closing quote the source leaves its while loop and
still executes pos += 1 and returns the token, so the empty-buffer case
succeeds here, faithfully. -/
def scanString : List Char → Option (List Char × List Char)
  | [] => some ([], [])
  | c :: rest =>
    if c = '\"' then some ([], rest)
    else if c = '\\' then
      match rest with
      | [] => none
      | e :: rest' =>
        if e = '\"' then (scanString rest').map (fun r => ('\"' :: r.1, r.2))
        else if e = 'n' then (scanString rest').map (fun r => ('\n' :: r.1, r.2))
        else if e = '\\' then (scanString rest').map (fun r => ('\\' :: r.1, r.2))
        else none
    else (scanString rest).map (fun r => (c :: r.1, r.2))

/-- The numeric-literal scan of lex, src/src/lexer.rs lines 175 to 188: a
maximal run of ASCII digits and dots, failing (None) on a second dot.  The
float flag records whether a dot has been seen. -/
def scanNum : List Char → Bool → Option (List Char × List Char)
  | [], _ => some ([], [])
  | c :: rest, float =>
    if c.isDigit then (scanNum rest float).map (fun r => (c :: r.1, r.2))
    else if c = '.' then
      if float then none
      else (scanNum rest true).map (fun r => ('.' :: r.1, r.2))
    else some ([], c :: rest)

/-- The identifier scan of lex, src/src/lexer.rs lines 193 to 196: the
continuation characters (ASCII alphanumeric or underscore) after the first
character has already been taken. -/
def scanIdent : List Char → List Char × List Char
  | [] => ([], [])
  | c :: rest =>
    if c.isAlphanum ∨ c = '_' then
      let r := scanIdent rest
      (c :: r.1, r.2)
    else ([], c :: rest)

/-- Outcome of looking at one non-comment, non-whitespace character in lex:
either a token is produced (with the characters remaining after it), or the
scan fails (Rust None), or the character matches nothing and the source
falls through to pos += 1, silently skipping it (src/src/lexer.rs lines 168
and 222). -/
inductive LexStep where
  | tok (ttype : TokenType) (value : String) (rest : List Char)
  | fail
  | skip
deriving DecidableEq

/-- The per-character dispatch of lex, src/src/lexer.rs lines 56 to 220: the
single-character punctuation and operator matches, the string-literal
branch, the two-character lookahead operators, then the numeric and
identifier scans; any other character is skipped (lines 168 and 222). -/
def lexStep (c : Char) (rest : List Char) : LexStep :=
  if c = '+' then .tok .Add "+" rest
  else if c = '-' then .tok .Sub "-" rest
  else if c = '*' then .tok .Mul "*" rest
  else if c = '/' then .tok .Div "/" rest
  else if c = '%' then .tok .Mod "%" rest
  else if c = '(' then .tok .Opt "(" rest
  else if c = ')' then .tok .Cpt ")" rest
  else if c = '\x7b' then .tok .Ocl "\x7b" rest
  else if c = '\x7d' then .tok .Ccl "\x7d" rest
  else if c = '[' then .tok .Osq "[" rest
  else if c = ']' then .tok .Csq "]" rest
  else if c = ',' then .tok .Com "," rest
  else if c = ';' then .tok .Scln ";" rest
  else if c = '\"' then
    match scanString rest with
    | none => .fail
    | some (lit, rest') => .tok .Str (String.mk lit) rest'
  else if c = '=' then
    match rest with
    | '=' :: rest' => .tok .Eqv "==" rest'
    | _ => .tok .Equ "=" rest
  else if c = '<' then
    match rest with
    | '=' :: rest' => .tok .Leq "<=" rest'
    | _ => .tok .Les "<" rest
  else if c = '>' then
    match rest with
    | '=' :: rest' => .tok .Geq ">=" rest'
    | _ => .tok .Gre ">" rest
  else if c.isDigit then
    match scanNum (c :: rest) false with
    | none => .fail
    | some (val, rest') => .tok .Num (String.mk val) rest'
  else if c.isAlpha ∨ c = '_' then
    let r := scanIdent rest
    .tok (keywordType (String.mk (c :: r.1))) (String.mk (c :: r.1)) r.2
  else .skip

mutual

/-- One call of lex, src/src/lexer.rs lines 40 to 229, on the remaining
character list: skips comments (through lexComment) and whitespace,
dispatches through lexStep, and loops past characters lexStep does not
recognize; none is a lexical failure.  An exhausted buffer yields the
end-of-file token.  The line argument is the threaded line counter
(modelled from the spec, section 4.1 step 2: each skipped newline
increments it); the Rust source in src/src/lexer.rs carries no such
counter.  Rust char::is_whitespace is Unicode-aware where
Char.isWhitespace is ASCII-only; the difference is invisible here because
a character that matches neither is skipped either way. -/
def lex (l : List Char) (line : Nat) : Option (Token × List Char × Nat) :=
  match l with
  | [] => some (⟨.Eof, "", line⟩, [], line)
  | c :: rest =>
    if c = '#' then lexComment rest line
    else if c.isWhitespace then lex rest (if c = '\n' then line + 1 else line)
    else match lexStep c rest with
      | .tok tt v rest' => some (⟨tt, v, line⟩, rest', line)
      | .fail => none
      | .skip => lex rest line

/-- The comment skip of lex, src/src/lexer.rs lines 44 to 49: consume
characters up to the next newline, then resume scanning.  The source stops
just before the newline and lets the whitespace branch consume it; that
step (which is where the line counter advances) is inlined here. -/
def lexComment (l : List Char) (line : Nat) : Option (Token × List Char × Nat) :=
  match l with
  | [] => some (⟨.Eof, "", line⟩, [], line)
  | c :: rest =>
    if c = '\n' then lex rest (line + 1)
    else lexComment rest line

end



/-- Fuel-indexed form of the token-collection loop of main, src/src/main.rs
lines 26 to 43: lex is called repeatedly; an end-of-file token is pushed and
the loop stops; on a lexical failure (None) the loop stops without pushing
anything.  The boolean records whether the loop ended at end-of-file (true)
or stopped early (false).  The source loop is unbounded; by lex_rest_lt each
non-final token strictly consumes input, so any fuel beyond the buffer
length is enough, and lexAllF_stable below shows the result is then
independent of the budget. -/
def lexAllF : Nat → List Char → Nat → List Token × Bool
  | 0, _, _ => ([], false)
  | fuel + 1, l, line =>
    match lex l line with
    | none => ([], false)
    | some (tok, rest, line') =>
      if tok.ttype = .Eof then ([tok], true)
      else
        let p := lexAllF fuel rest line'
        (tok :: p.1, p.2)

/-- The materialized token sequence of src/src/main.rs lines 26 to 43, with
the always-sufficient budget.  The driver also makes one discarded lex call
before resetting pos to 0 (main.rs lines 21 to 26); it can only advance the
shared line counter past newlines preceding the first token, which is the
identity on the inputs the claims touch, so the loop is modelled from a
fresh cursor. -/
def lexAll (l : List Char) (line : Nat) : List Token × Bool :=
  lexAllF (l.length + 1) l line


/-- Parse failure taxonomy, from the ParserError enum in src/src/parser.rs
lines 3 to 9; the numeric payload is the reported line. -/
inductive ParserError where
  | UnexpectedToken (msg : String) (line : Nat)
  | UnterminatedBlock (line : Nat)
  | ExpectedSemicolon (line : Nat)
  | ExpectedToken (msg : String) (line : Nat)
deriving DecidableEq

/-- Syntax tree, from the ASTNode enum in src/src/parser.rs lines 11 to 69.
Numeric literals are f64 in the source; they are carried here as rationals,
which is exact for every value these claims touch (the conversion model
parseSimpleFloat below documents the correspondence). -/
inductive ASTNode where
  | Eof
  | Number (n : ℚ)
  | Identifier (name : String)
  | ImportNode (name : String)
  | StrLiteral (s : String)
  | BreakNode
  | BoolNode (b : Bool)
  | ReturnNode (e : Option ASTNode)
  | BinOpNode (op : String) (left right : ASTNode)
  | VarDecNode (name : String) (value : ASTNode)
  | AssignNode (name : String) (value : ASTNode)
  | IfElseNode (condition : ASTNode) (then_branch : List ASTNode)
      (elif_branch : List (ASTNode × List ASTNode))
      (else_branch : Option (List ASTNode))
  | LoopNode (condition : ASTNode) (block : List ASTNode)
  | FuncCall (name : String) (arguments : List ASTNode)
  | FuncDef (name : String) (arguments : List ASTNode) (block : List ASTNode)

/-- Digit-run value, little helper for parseSimpleFloat. -/
def digitsToNat (l : List Char) : Nat :=
  l.foldl (fun a c => a * 10 + (c.toNat - 48)) 0

/-- Modelled from the spec: the string-to-f64 conversion
token.value.parse::<f64>() used by parse_factor (src/src/parser.rs line
107), which is Rust standard-library code with no source in this
repository.  Restricted to the shapes the lexer can emit: a nonempty digit
run, optionally followed by one dot and a digit run, evaluates to the exact
rational it denotes (Rust accepts every such string); anything else is
conservatively rejected here. -/
def parseSimpleFloat (s : String) : Option ℚ :=
  let l := s.data
  let ip := l.takeWhile Char.isDigit
  let rest := l.dropWhile Char.isDigit
  if ip = [] then none
  else
    match rest with
    | [] => some ((digitsToNat ip : ℚ))
    | c :: frac =>
      if c = '.' then
        if frac.all Char.isDigit then
          some ((digitsToNat ip : ℚ) + mkRat (digitsToNat frac) (10 ^ frac.length))
        else none
      else none

/-- Result of one embedded parser call: none is fuel exhaustion (the source
loops forever on such inputs; see the block-loop claims), otherwise the
Rust Result paired with the parser cursor position after the call, errors
included, since the source keeps using self.pos after a failed sub-parse. -/
abbrev PRes (α : Type) := Option (Except ParserError α × Nat)

/-- Cursor read, Parser::current, src/src/parser.rs lines 97 to 100. -/
def currentT (toks : List Token) (pos : Nat) : Except ParserError Token :=
  match toks.get? pos with
  | some t => .ok t
  | none => .error (.UnexpectedToken "Unexpected end of input" 0)

/-- Cursor advance, Parser::consume, src/src/parser.rs lines 85 to 89: the
index moves forward only while pos <= tokens.len(). -/
def consume (toks : List Token) (pos : Nat) : Nat :=
  if pos ≤ toks.length then pos + 1 else pos

/-- One-token pushback, Parser::puke, src/src/parser.rs lines 91 to 95.  The
source guard pos - 1 >= 0 is trivially true for usize; natural subtraction
renders the decrement (the parser never pushes back at position 0 on the
paths verified here, where a Rust debug build would panic on underflow). -/
def puke (pos : Nat) : Nat :=
  pos - 1

mutual

/-- Parser::parse_factor, src/src/parser.rs lines 102 to 159. -/
def parse_factor (fuel : Nat) (toks : List Token) (pos : Nat) : PRes ASTNode :=
  match fuel with
  | 0 => none
  | fuel + 1 =>
    match currentT toks pos with
    | .error e => some (.error e, pos)
    | .ok token =>
      match token.ttype with
      | .Num =>
        some (.ok (.Number ((parseSimpleFloat token.value).getD 0)), consume toks pos)
      | .Iden =>
        let pos1 := consume toks pos
        match currentT toks pos1 with
        | .error e => some (.error e, pos1)
        | .ok t2 =>
          if t2.ttype = .Opt then parse_func_call fuel toks (puke pos1)
          else
            let pos2 := puke pos1
            match currentT toks pos2 with
            | .error e => some (.error e, pos2)
            | .ok t3 => some (.ok (.Identifier t3.value), consume toks pos2)
      | .Str => some (.ok (.StrLiteral token.value), consume toks pos)
      | .True => some (.ok (.BoolNode true), consume toks pos)
      | .False => some (.ok (.BoolNode false), consume toks pos)
      | .Opt =>
        let pos1 := consume toks pos
        match parse_expr fuel toks pos1 false with
        | none => none
        | some (.error e, p) => some (.error e, p)
        | some (.ok node, p) =>
          match currentT toks p with
          | .error e => some (.error e, p)
          | .ok next =>
            if ¬(next.ttype = .Cpt) then
              some (.error (.ExpectedToken "closing parenthesis" next.line_num), p)
            else some (.ok node, consume toks p)
      | _ => some (.error (.UnexpectedToken token.value token.line_num), pos)
  termination_by structural fuel

/-- The multiplicative loop of Parser::parse_term, src/src/parser.rs lines
164 to 181; a cursor failure breaks out returning the node built so far. -/
def parse_term_loop (fuel : Nat) (toks : List Token) (node : ASTNode)
    (pos : Nat) : PRes ASTNode :=
  match fuel with
  | 0 => none
  | fuel + 1 =>
    match currentT toks pos with
    | .error _ => some (.ok node, pos)
    | .ok token =>
      if token.ttype = .Mul ∨ token.ttype = .Div ∨ token.ttype = .Mod then
        let op := token.value
        let pos1 := consume toks pos
        match parse_factor fuel toks pos1 with
        | none => none
        | some (.error e, p) => some (.error e, p)
        | some (.ok right, p) =>
          parse_term_loop fuel toks (.BinOpNode op node right) p
      else some (.ok node, pos)
  termination_by structural fuel

/-- Parser::parse_term, src/src/parser.rs lines 161 to 184. -/
def parse_term (fuel : Nat) (toks : List Token) (pos : Nat) : PRes ASTNode :=
  match fuel with
  | 0 => none
  | fuel + 1 =>
    match parse_factor fuel toks pos with
    | none => none
    | some (.error e, p) => some (.error e, p)
    | some (.ok node, p) => parse_term_loop fuel toks node p
  termination_by structural fuel

/-- The additive loop of Parser::parse_arith_expr, src/src/parser.rs lines
189 to 206. -/
def parse_arith_loop (fuel : Nat) (toks : List Token) (node : ASTNode)
    (pos : Nat) : PRes ASTNode :=
  match fuel with
  | 0 => none
  | fuel + 1 =>
    match currentT toks pos with
    | .error _ => some (.ok node, pos)
    | .ok token =>
      if token.ttype = .Add ∨ token.ttype = .Sub then
        let op := token.value
        let pos1 := consume toks pos
        match parse_term fuel toks pos1 with
        | none => none
        | some (.error e, p) => some (.error e, p)
        | some (.ok right, p) =>
          parse_arith_loop fuel toks (.BinOpNode op node right) p
      else some (.ok node, pos)
  termination_by structural fuel

/-- Parser::parse_arith_expr, src/src/parser.rs lines 186 to 209. -/
def parse_arith_expr (fuel : Nat) (toks : List Token) (pos : Nat) : PRes ASTNode :=
  match fuel with
  | 0 => none
  | fuel + 1 =>
    match parse_term fuel toks pos with
    | none => none
    | some (.error e, p) => some (.error e, p)
    | some (.ok node, p) => parse_arith_loop fuel toks node p
  termination_by structural fuel

/-- The relational loop of Parser::parse_comp_expr, src/src/parser.rs lines
214 to 231. -/
def parse_comp_loop (fuel : Nat) (toks : List Token) (node : ASTNode)
    (pos : Nat) : PRes ASTNode :=
  match fuel with
  | 0 => none
  | fuel + 1 =>
    match currentT toks pos with
    | .error _ => some (.ok node, pos)
    | .ok token =>
      if token.ttype = .Geq ∨ token.ttype = .Leq ∨ token.ttype = .Gre ∨
          token.ttype = .Les ∨ token.ttype = .Eqv then
        let op := token.value
        let pos1 := consume toks pos
        match parse_arith_expr fuel toks pos1 with
        | none => none
        | some (.error e, p) => some (.error e, p)
        | some (.ok right, p) =>
          parse_comp_loop fuel toks (.BinOpNode op node right) p
      else some (.ok node, pos)
  termination_by structural fuel

/-- Parser::parse_comp_expr, src/src/parser.rs lines 211 to 234. -/
def parse_comp_expr (fuel : Nat) (toks : List Token) (pos : Nat) : PRes ASTNode :=
  match fuel with
  | 0 => none
  | fuel + 1 =>
    match parse_arith_expr fuel toks pos with
    | none => none
    | some (.error e, p) => some (.error e, p)
    | some (.ok node, p) => parse_comp_loop fuel toks node p
  termination_by structural fuel

/-- The boolean loop of Parser::parse_logic_expr, src/src/parser.rs lines
239 to 256. -/
def parse_logic_loop (fuel : Nat) (toks : List Token) (node : ASTNode)
    (pos : Nat) : PRes ASTNode :=
  match fuel with
  | 0 => none
  | fuel + 1 =>
    match currentT toks pos with
    | .error _ => some (.ok node, pos)
    | .ok token =>
      if token.ttype = .And ∨ token.ttype = .Or then
        let op := token.value
        let pos1 := consume toks pos
        match parse_comp_expr fuel toks pos1 with
        | none => none
        | some (.error e, p) => some (.error e, p)
        | some (.ok right, p) =>
          parse_logic_loop fuel toks (.BinOpNode op node right) p
      else some (.ok node, pos)
  termination_by structural fuel

/-- Parser::parse_logic_expr, src/src/parser.rs lines 236 to 259. -/
def parse_logic_expr (fuel : Nat) (toks : List Token) (pos : Nat) : PRes ASTNode :=
  match fuel with
  | 0 => none
  | fuel + 1 =>
    match parse_comp_expr fuel toks pos with
    | none => none
    | some (.error e, p) => some (.error e, p)
    | some (.ok node, p) => parse_logic_loop fuel toks node p
  termination_by structural fuel

/-- Parser::parse_expr, src/src/parser.rs lines 261 to 282: only identifier,
number, string or boolean starts are accepted; with terminate set a
semicolon must follow and is consumed. -/
def parse_expr (fuel : Nat) (toks : List Token) (pos : Nat)
    (terminate : Bool) : PRes ASTNode :=
  match fuel with
  | 0 => none
  | fuel + 1 =>
    match currentT toks pos with
    | .error e => some (.error e, pos)
    | .ok t =>
      match t.ttype with
      | .Iden | .Num | .Str | .True | .False =>
        match parse_logic_expr fuel toks pos with
        | none => none
        | some (.error e, p) => some (.error e, p)
        | some (.ok node, p) =>
          if terminate then
            match currentT toks p with
            | .error e => some (.error e, p)
            | .ok tk =>
              if ¬(tk.ttype = .Scln) then
                some (.error (.ExpectedSemicolon tk.line_num), p)
              else some (.ok node, consume toks p)
          else some (.ok node, p)
      | _ =>
        some (.error (.UnexpectedToken "Invalid start of expression" t.line_num), pos)
  termination_by structural fuel

/-- Parser::parse_statement, src/src/parser.rs lines 284 to 350: dispatch on
the current token; an end-of-file token yields Ok(Eof) without consuming
anything. -/
def parse_statement (fuel : Nat) (toks : List Token) (pos : Nat) : PRes ASTNode :=
  match fuel with
  | 0 => none
  | fuel + 1 =>
    match currentT toks pos with
    | .error e => some (.error e, pos)
    | .ok t =>
      match t.ttype with
      | .Eof => some (.ok .Eof, pos)
      | .Import => parse_import fuel toks pos
      | .Let => parse_var_def fuel toks pos
      | .Func => parse_func_def fuel toks pos
      | .If => parse_ifelse fuel toks pos
      | .Loop => parse_loop fuel toks pos
      | .Break =>
        let pos1 := consume toks pos
        match currentT toks pos1 with
        | .error e => some (.error e, pos1)
        | .ok t1 =>
          if ¬(t1.ttype = .Scln) then
            some (.error (.ExpectedSemicolon t1.line_num), pos1)
          else some (.ok .BreakNode, consume toks pos1)
      | .Return =>
        let pos1 := consume toks pos
        match parse_expr fuel toks pos1 true with
        | none => none
        | some (.ok node, p) => some (.ok (.ReturnNode (some node)), p)
        | some (.error _, p) =>
          match currentT toks p with
          | .error e => some (.error e, p)
          | .ok t1 =>
            if ¬(t1.ttype = .Scln) then
              some (.error (.ExpectedSemicolon t1.line_num), p)
            else some (.ok (.ReturnNode none), consume toks p)
      | .Iden =>
        let pos1 := consume toks pos
        match currentT toks pos1 with
        | .error e => some (.error e, pos1)
        | .ok t2 =>
          if t2.ttype = .Opt then
            match parse_func_call fuel toks (puke pos1) with
            | none => none
            | some (r, p) =>
              match currentT toks p with
              | .error e => some (.error e, p)
              | .ok tk =>
                if ¬(tk.ttype = .Scln) then
                  some (.error (.ExpectedSemicolon tk.line_num), p)
                else some (r, consume toks p)
          else if t2.ttype = .Equ then parse_assign fuel toks (puke pos1)
          else some (.error (.UnexpectedToken t2.value t2.line_num), pos1)
      | _ => parse_expr fuel toks pos true
  termination_by structural fuel

/-- Parser::parse_import, src/src/parser.rs lines 352 to 364. -/
def parse_import (fuel : Nat) (toks : List Token) (pos : Nat) : PRes ASTNode :=
  match fuel with
  | 0 => none
  | fuel + 1 =>
    let pos1 := consume toks pos
    match currentT toks pos1 with
    | .error e => some (.error e, pos1)
    | .ok t =>
      if ¬(t.ttype = .Str) then
        some (.error (.UnexpectedToken "Invalid module string" t.line_num), pos1)
      else some (.ok (.ImportNode t.value), consume toks pos1)

/-- The statement loop of Parser::parse_block, src/src/parser.rs lines 385
to 397.  The three values thetype, theval and thenum are cloned from the
token after the opening brace once, before the loop (lines 381 to 383), and
are never refreshed: the loop condition tests that stale snapshot, and any
statement failure is reported as UnexpectedToken built from the snapshot. -/
def parse_block_loop (fuel : Nat) (toks : List Token) (thetype : TokenType)
    (theval : String) (thenum : Nat) (pos : Nat) (acc : List ASTNode) :
    PRes (List ASTNode) :=
  match fuel with
  | 0 => none
  | fuel + 1 =>
    if thetype = .Ccl then some (.ok acc, pos)
    else
      match parse_statement fuel toks pos with
      | none => none
      | some (.error _, p) => some (.error (.UnexpectedToken theval thenum), p)
      | some (.ok node, p) =>
        parse_block_loop fuel toks thetype theval thenum p (acc ++ [node])
  termination_by structural fuel

/-- Parser::parse_block, src/src/parser.rs lines 366 to 412.  The source
reads the snapshot token with three current()? calls in a row (lines 381 to
383); one read of the same token is taken here.  Both closing-brace checks
after the loop are kept, including the second, unreachable one. -/
def parse_block (fuel : Nat) (toks : List Token) (pos : Nat) :
    PRes (List ASTNode) :=
  match fuel with
  | 0 => none
  | fuel + 1 =>
    match currentT toks pos with
    | .error e => some (.error e, pos)
    | .ok t =>
      if ¬(t.ttype = .Ocl) then
        some (.error (.ExpectedToken "\x7b" t.line_num), pos)
      else
        let pos1 := consume toks pos
        match currentT toks pos1 with
        | .error e => some (.error e, pos1)
        | .ok t1 =>
          match parse_block_loop fuel toks t1.ttype t1.value t1.line_num pos1 [] with
          | none => none
          | some (.error e, p) => some (.error e, p)
          | some (.ok stmts, p) =>
            match currentT toks p with
            | .error e => some (.error e, p)
            | .ok tc =>
              if ¬(tc.ttype = .Ccl) then
                some (.error (.UnterminatedBlock tc.line_num), p)
              else if ¬(tc.ttype = .Ccl) then
                some (.error (.ExpectedToken "\x7d" tc.line_num), p)
              else some (.ok stmts, consume toks p)
  termination_by structural fuel

/-- Parser::parse_var_def, src/src/parser.rs lines 414 to 428: after the
let keyword, the very next token's text is taken as the name with no check
that it is an identifier, and the token after that is consumed with no
check that it is an equals sign. -/
def parse_var_def (fuel : Nat) (toks : List Token) (pos : Nat) : PRes ASTNode :=
  match fuel with
  | 0 => none
  | fuel + 1 =>
    let pos1 := consume toks pos
    match currentT toks pos1 with
    | .error e => some (.error e, pos1)
    | .ok t =>
      let name := t.value
      let pos2 := consume toks pos1
      let pos3 := consume toks pos2
      match parse_expr fuel toks pos3 true with
      | none => none
      | some (.error e, p) => some (.error e, p)
      | some (.ok value, p) => some (.ok (.VarDecNode name value), p)

/-- Parser::parse_func_def, src/src/parser.rs lines 430 to 447; a block
failure is converted to an UnexpectedToken error read at the position the
failed block parse left behind. -/
def parse_func_def (fuel : Nat) (toks : List Token) (pos : Nat) : PRes ASTNode :=
  match fuel with
  | 0 => none
  | fuel + 1 =>
    let pos1 := consume toks pos
    match currentT toks pos1 with
    | .error e => some (.error e, pos1)
    | .ok t =>
      let name := t.value
      let pos2 := consume toks pos1
      match parse_args_def fuel toks pos2 with
      | none => none
      | some (.error e, p) => some (.error e, p)
      | some (.ok argsOpt, p) =>
        let arguments := argsOpt.getD []
        match parse_block fuel toks p with
        | none => none
        | some (.ok block, p2) => some (.ok (.FuncDef name arguments block), p2)
        | some (.error _, p2) =>
          match currentT toks p2 with
          | .error e => some (.error e, p2)
          | .ok tc =>
            some (.error (.UnexpectedToken "Error parsing function definition" tc.line_num), p2)
  termination_by structural fuel

/-- Parser::parse_func_call, src/src/parser.rs lines 449 to 461. -/
def parse_func_call (fuel : Nat) (toks : List Token) (pos : Nat) : PRes ASTNode :=
  match fuel with
  | 0 => none
  | fuel + 1 =>
    match currentT toks pos with
    | .error e => some (.error e, pos)
    | .ok t =>
      let name := t.value
      let pos1 := consume toks pos
      match parse_args_call fuel toks pos1 with
      | none => none
      | some (.error e, p) => some (.error e, p)
      | some (.ok args, p) => some (.ok (.FuncCall name args), p)
  termination_by structural fuel

/-- The loop of Parser::parse_args_def, src/src/parser.rs lines 473 to 505:
each token in argument position is pushed as an Identifier of its text with
no check of its kind; a cursor failure breaks to the loop-exit error of
line 506, which reports line 0. -/
def parse_args_def_loop (fuel : Nat) (toks : List Token) (pos : Nat)
    (acc : List ASTNode) : PRes (Option (List ASTNode)) :=
  match fuel with
  | 0 => none
  | fuel + 1 =>
    match toks.get? pos with
    | none => some (.error (.UnexpectedToken "Error parsing function arguments" 0), pos)
    | some token =>
      if token.ttype = .Cpt then some (.ok (some acc), consume toks pos)
      else
        let acc' := acc ++ [ASTNode.Identifier token.value]
        let pos1 := consume toks pos
        match toks.get? pos1 with
        | none =>
          some (.error (.UnexpectedToken "Error parsing function arguments" 0), pos1)
        | some sep =>
          if sep.ttype = .Com then parse_args_def_loop fuel toks (consume toks pos1) acc'
          else if sep.ttype = .Cpt then some (.ok (some acc'), consume toks pos1)
          else
            some (.error (.UnexpectedToken "Error parsing function arguments" sep.line_num), pos1)
  termination_by structural fuel

/-- Parser::parse_args_def, src/src/parser.rs lines 463 to 507: consumes
the opening parenthesis unconditionally; an immediately following closing
parenthesis yields Ok(None), which the caller defaults to no arguments. -/
def parse_args_def (fuel : Nat) (toks : List Token) (pos : Nat) :
    PRes (Option (List ASTNode)) :=
  match fuel with
  | 0 => none
  | fuel + 1 =>
    let pos1 := consume toks pos
    match currentT toks pos1 with
    | .error e => some (.error e, pos1)
    | .ok t =>
      if t.ttype = .Cpt then some (.ok none, consume toks pos1)
      else parse_args_def_loop fuel toks pos1 []

/-- The loop of Parser::parse_args_call, src/src/parser.rs lines 514 to
536. -/
def parse_args_call_loop (fuel : Nat) (toks : List Token) (pos : Nat)
    (acc : List ASTNode) : PRes (List ASTNode) :=
  match fuel with
  | 0 => none
  | fuel + 1 =>
    match currentT toks pos with
    | .error e => some (.error e, pos)
    | .ok t =>
      if t.ttype = .Cpt then some (.ok acc, consume toks pos)
      else
        match parse_expr fuel toks pos false with
        | none => none
        | some (.error e, p) => some (.error e, p)
        | some (.ok node, p) =>
          let acc' := acc ++ [node]
          match currentT toks p with
          | .error e => some (.error e, p)
          | .ok sep =>
            if sep.ttype = .Com then parse_args_call_loop fuel toks (consume toks p) acc'
            else if sep.ttype = .Cpt then some (.ok acc', consume toks p)
            else
              some (.error (.UnexpectedToken "Error parsing function call arguments" sep.line_num), p)
  termination_by structural fuel

/-- Parser::parse_args_call, src/src/parser.rs lines 509 to 538. -/
def parse_args_call (fuel : Nat) (toks : List Token) (pos : Nat) :
    PRes (List ASTNode) :=
  match fuel with
  | 0 => none
  | fuel + 1 => parse_args_call_loop fuel toks (consume toks pos) []
  termination_by structural fuel

/-- Parser::parse_loop, src/src/parser.rs lines 540 to 566. -/
def parse_loop (fuel : Nat) (toks : List Token) (pos : Nat) : PRes ASTNode :=
  match fuel with
  | 0 => none
  | fuel + 1 =>
    let pos1 := consume toks pos
    match currentT toks pos1 with
    | .error e => some (.error e, pos1)
    | .ok t =>
      if ¬(t.ttype = .Opt) then some (.error (.ExpectedToken "(" t.line_num), pos1)
      else
        let pos2 := consume toks pos1
        match parse_expr fuel toks pos2 false with
        | none => none
        | some (.error e, p) => some (.error e, p)
        | some (.ok condition, p) =>
          match currentT toks p with
          | .error e => some (.error e, p)
          | .ok t2 =>
            if ¬(t2.ttype = .Cpt) then some (.error (.ExpectedToken ")" t2.line_num), p)
            else
              match parse_block fuel toks (consume toks p) with
              | none => none
              | some (.error e, p2) => some (.error e, p2)
              | some (.ok block, p2) => some (.ok (.LoopNode condition block), p2)
  termination_by structural fuel

/-- The elif loop of Parser::parse_ifelse, src/src/parser.rs lines 596 to
614. -/
def parse_elif_loop (fuel : Nat) (toks : List Token) (pos : Nat)
    (acc : List (ASTNode × List ASTNode)) : PRes (List (ASTNode × List ASTNode)) :=
  match fuel with
  | 0 => none
  | fuel + 1 =>
    match currentT toks pos with
    | .error e => some (.error e, pos)
    | .ok t =>
      if ¬(t.ttype = .Elif) then some (.ok acc, pos)
      else
        let pos1 := consume toks pos
        match currentT toks pos1 with
        | .error e => some (.error e, pos1)
        | .ok t1 =>
          if ¬(t1.ttype = .Opt) then some (.error (.ExpectedToken "(" t1.line_num), pos1)
          else
            let pos2 := consume toks pos1
            match parse_expr fuel toks pos2 false with
            | none => none
            | some (.error e, p) => some (.error e, p)
            | some (.ok c, p) =>
              match currentT toks p with
              | .error e => some (.error e, p)
              | .ok t2 =>
                if ¬(t2.ttype = .Cpt) then some (.error (.ExpectedToken ")" t2.line_num), p)
                else
                  match parse_block fuel toks (consume toks p) with
                  | none => none
                  | some (.error e, p2) => some (.error e, p2)
                  | some (.ok blk, p2) => parse_elif_loop fuel toks p2 (acc ++ [(c, blk)])
  termination_by structural fuel

/-- Parser::parse_ifelse, src/src/parser.rs lines 579 to 633. -/
def parse_ifelse (fuel : Nat) (toks : List Token) (pos : Nat) : PRes ASTNode :=
  match fuel with
  | 0 => none
  | fuel + 1 =>
    let pos1 := consume toks pos
    match currentT toks pos1 with
    | .error e => some (.error e, pos1)
    | .ok t =>
      if ¬(t.ttype = .Opt) then some (.error (.ExpectedToken "(" t.line_num), pos1)
      else
        let pos2 := consume toks pos1
        match parse_expr fuel toks pos2 false with
        | none => none
        | some (.error e, p) => some (.error e, p)
        | some (.ok ifcondition, p) =>
          match currentT toks p with
          | .error e => some (.error e, p)
          | .ok t2 =>
            if ¬(t2.ttype = .Cpt) then some (.error (.ExpectedToken ")" t2.line_num), p)
            else
              match parse_block fuel toks (consume toks p) with
              | none => none
              | some (.error e, p2) => some (.error e, p2)
              | some (.ok then_branch, p2) =>
                match parse_elif_loop fuel toks p2 [] with
                | none => none
                | some (.error e, p3) => some (.error e, p3)
                | some (.ok elif_branches, p3) =>
                  match currentT toks p3 with
                  | .error e => some (.error e, p3)
                  | .ok t3 =>
                    if t3.ttype = .Else then
                      match parse_block fuel toks (consume toks p3) with
                      | none => none
                      | some (.error e, p4) => some (.error e, p4)
                      | some (.ok eb, p4) =>
                        some (.ok (.IfElseNode ifcondition then_branch elif_branches (some eb)), p4)
                    else
                      some (.ok (.IfElseNode ifcondition then_branch elif_branches none), p3)
  termination_by structural fuel

/-- Parser::parse_assign, src/src/parser.rs lines 635 to 648. -/
def parse_assign (fuel : Nat) (toks : List Token) (pos : Nat) : PRes ASTNode :=
  match fuel with
  | 0 => none
  | fuel + 1 =>
    match currentT toks pos with
    | .error e => some (.error e, pos)
    | .ok t =>
      let name := t.value
      let pos1 := consume toks pos
      let pos2 := consume toks pos1
      match parse_expr fuel toks pos2 true with
      | none => none
      | some (.error e, p) => some (.error e, p)
      | some (.ok value, p) => some (.ok (.AssignNode name value), p)
end

/-- Outcome classification for the string-literal scan, following the
amended-claim wording: the scan either finds a matching unescaped closing
quote (with the unescaped text and the characters after the quote), or
reaches the end of the buffer before any closing quote (with the text
scanned so far), or fails. -/
inductive StrScan where
  | closed (lit : List Char) (rem : List Char)
  | unterminated (lit : List Char)
  | failed
deriving DecidableEq

/-- Modelled from the spec: the prose description of the string-literal
scan, written to be compared against the source-derived scanString.  The
body is scanned char by char until a matching unescaped quote; a backslash
introduces an escape restricted to quote, n and backslash, each contributing
its unescaped character; any other escape character, or a backslash at the
end of the buffer, fails the scan; reaching the end of the buffer before a
closing quote leaves the scan unterminated with the text collected so
far. -/
def strScanSpec : List Char → StrScan
  | [] => .unterminated []
  | c :: rest =>
    if c = '\"' then .closed [] rest
    else if c = '\\' then
      match rest with
      | [] => .failed
      | e :: rest' =>
        if e = '\"' then
          match strScanSpec rest' with
          | .closed lit rem => .closed ('\"' :: lit) rem
          | .unterminated lit => .unterminated ('\"' :: lit)
          | .failed => .failed
        else if e = 'n' then
          match strScanSpec rest' with
          | .closed lit rem => .closed ('\n' :: lit) rem
          | .unterminated lit => .unterminated ('\n' :: lit)
          | .failed => .failed
        else if e = '\\' then
          match strScanSpec rest' with
          | .closed lit rem => .closed ('\\' :: lit) rem
          | .unterminated lit => .unterminated ('\\' :: lit)
          | .failed => .failed
        else .failed
    else
      match strScanSpec rest with
      | .closed lit rem => .closed (c :: lit) rem
      | .unterminated lit => .unterminated (c :: lit)
      | .failed => .failed

/-- The token sequence the driver builds for the unterminated-block program
fn f() with an opening brace and one let statement but no closing brace;
all tokens are on line 0. -/
def c2toks : List Token :=
  [⟨.Func, "fn", 0⟩, ⟨.Iden, "f", 0⟩, ⟨.Opt, "(", 0⟩, ⟨.Cpt, ")", 0⟩,
   ⟨.Ocl, "\x7b", 0⟩, ⟨.Let, "let", 0⟩, ⟨.Iden, "x", 0⟩, ⟨.Equ, "=", 0⟩,
   ⟨.Num, "1", 0⟩, ⟨.Scln, ";", 0⟩, ⟨.Eof, "", 0⟩]

/-- The guard set of lex and lexStep: a character is recognized when some
branch of the scan other than the catch-all skip applies to it. -/
def recognizedChar (c : Char) : Prop :=
  c = '#' ∨ c.isWhitespace = true ∨ c = '+' ∨ c = '-' ∨ c = '*' ∨ c = '/' ∨
    c = '%' ∨ c = '(' ∨ c = ')' ∨ c = '\x7b' ∨ c = '\x7d' ∨ c = '[' ∨
    c = ']' ∨ c = ',' ∨ c = ';' ∨ c = '\"' ∨ c = '=' ∨ c = '<' ∨ c = '>' ∨
    c.isDigit = true ∨ c.isAlpha = true ∨ c = '_'

instance (c : Char) : Decidable (recognizedChar c) := by
  unfold recognizedChar
  infer_instance


/-- Auxiliary bound for scanString, indexed by a length budget because the
escape case consumes two characters at once. -/
theorem scanString_length_aux (n : Nat) : ∀ l lit rem : List Char, l.length ≤ n →
    scanString l = some (lit, rem) → rem.length ≤ l.length := by
  induction n with
  | zero =>
    intro l lit rem hn h
    cases l with
    | nil =>
      simp [scanString] at h
      obtain ⟨h1, h2⟩ := h
      subst h2
      simp
    | cons c rest => simp at hn
  | succ n ih =>
    intro l lit rem hn h
    cases l with
    | nil =>
      simp [scanString] at h
      obtain ⟨h1, h2⟩ := h
      subst h2
      simp
    | cons c rest =>
      unfold scanString at h
      split at h
      · simp at h
        obtain ⟨h1, h2⟩ := h
        subst h2
        simp
      · split at h
        · split at h
          · exact absurd h (by simp)
          · rename_i _ e rest'
            split at h
            · simp only [Option.map_eq_some'] at h
              obtain ⟨p, hp, hpe⟩ := h
              have := ih rest' p.1 p.2 (by simp at hn; omega) (by simpa using hp)
              simp only [Prod.mk.injEq] at hpe
              rw [← hpe.2]
              simp
              omega
            · split at h
              · simp only [Option.map_eq_some'] at h
                obtain ⟨p, hp, hpe⟩ := h
                have := ih rest' p.1 p.2 (by simp at hn; omega) (by simpa using hp)
                simp only [Prod.mk.injEq] at hpe
                rw [← hpe.2]
                simp
                omega
              · split at h
                · simp only [Option.map_eq_some'] at h
                  obtain ⟨p, hp, hpe⟩ := h
                  have := ih rest' p.1 p.2 (by simp at hn; omega) (by simpa using hp)
                  simp only [Prod.mk.injEq] at hpe
                  rw [← hpe.2]
                  simp
                  omega
                · exact absurd h (by simp)
        · simp only [Option.map_eq_some'] at h
          obtain ⟨p, hp, hpe⟩ := h
          have := ih rest p.1 p.2 (by simp at hn; omega) (by simpa using hp)
          simp only [Prod.mk.injEq] at hpe
          rw [← hpe.2]
          simp
          omega

/-- The string scan never lengthens the remaining buffer. -/
theorem scanString_length {l lit rem : List Char}
    (h : scanString l = some (lit, rem)) : rem.length ≤ l.length :=
  scanString_length_aux l.length l lit rem (le_refl _) h

/-- The numeric scan never lengthens the remaining buffer. -/
theorem scanNum_length : ∀ (l : List Char) (float : Bool) (val rem : List Char),
    scanNum l float = some (val, rem) → rem.length ≤ l.length := by
  intro l
  induction l with
  | nil =>
    intro float val rem h
    simp [scanNum] at h
    obtain ⟨h1, h2⟩ := h
    subst h2
    simp
  | cons c rest ih =>
    intro float val rem h
    unfold scanNum at h
    split at h
    · simp only [Option.map_eq_some'] at h
      obtain ⟨p, hp, hpe⟩ := h
      simp only [Prod.mk.injEq] at hpe
      rw [← hpe.2]
      exact Nat.le_succ_of_le (ih _ _ _ hp)
    · split at h
      · split at h
        · exact absurd h (by simp)
        · simp only [Option.map_eq_some'] at h
          obtain ⟨p, hp, hpe⟩ := h
          simp only [Prod.mk.injEq] at hpe
          rw [← hpe.2]
          exact Nat.le_succ_of_le (ih _ _ _ hp)
      · simp at h
        obtain ⟨h1, h2⟩ := h
        subst h2
        simp

/-- The identifier scan never lengthens the remaining buffer. -/
theorem scanIdent_length (l : List Char) : (scanIdent l).2.length ≤ l.length := by
  induction l with
  | nil => simp [scanIdent]
  | cons c rest ih =>
    unfold scanIdent
    split
    · simpa using Nat.le_succ_of_le ih
    · simp

/-- A token produced by the per-character dispatch leaves no more characters
than it was given. -/
theorem lexStep_length {c : Char} {rest : List Char} {tt : TokenType}
    {v : String} {rest' : List Char}
    (h : lexStep c rest = .tok tt v rest') : rest'.length ≤ rest.length := by
  unfold lexStep at h
  by_cases h1 : c = '+'
  · rw [if_pos h1] at h
    simp at h
    rw [← h.2.2]
  rw [if_neg h1] at h
  by_cases h2 : c = '-'
  · rw [if_pos h2] at h
    simp at h
    rw [← h.2.2]
  rw [if_neg h2] at h
  by_cases h3 : c = '*'
  · rw [if_pos h3] at h
    simp at h
    rw [← h.2.2]
  rw [if_neg h3] at h
  by_cases h4 : c = '/'
  · rw [if_pos h4] at h
    simp at h
    rw [← h.2.2]
  rw [if_neg h4] at h
  by_cases h5 : c = '%'
  · rw [if_pos h5] at h
    simp at h
    rw [← h.2.2]
  rw [if_neg h5] at h
  by_cases h6 : c = '('
  · rw [if_pos h6] at h
    simp at h
    rw [← h.2.2]
  rw [if_neg h6] at h
  by_cases h7 : c = ')'
  · rw [if_pos h7] at h
    simp at h
    rw [← h.2.2]
  rw [if_neg h7] at h
  by_cases h8 : c = '\x7b'
  · rw [if_pos h8] at h
    simp at h
    rw [← h.2.2]
  rw [if_neg h8] at h
  by_cases h9 : c = '\x7d'
  · rw [if_pos h9] at h
    simp at h
    rw [← h.2.2]
  rw [if_neg h9] at h
  by_cases h10 : c = '['
  · rw [if_pos h10] at h
    simp at h
    rw [← h.2.2]
  rw [if_neg h10] at h
  by_cases h11 : c = ']'
  · rw [if_pos h11] at h
    simp at h
    rw [← h.2.2]
  rw [if_neg h11] at h
  by_cases h12 : c = ','
  · rw [if_pos h12] at h
    simp at h
    rw [← h.2.2]
  rw [if_neg h12] at h
  by_cases h13 : c = ';'
  · rw [if_pos h13] at h
    simp at h
    rw [← h.2.2]
  rw [if_neg h13] at h
  by_cases h14 : c = '\"'
  · rw [if_pos h14] at h
    rcases hsc : scanString rest with _ | ⟨lit, rest2⟩
    · rw [hsc] at h
      exact absurd h (by simp)
    · rw [hsc] at h
      simp at h
      rw [← h.2.2]
      exact scanString_length hsc
  rw [if_neg h14] at h
  by_cases h15 : c = '='
  · rw [if_pos h15] at h
    rcases rest with _ | ⟨r1, rtail⟩
    · simp at h
      rw [← h.2.2]
    · by_cases hr : r1 = '='
      · subst hr
        simp at h
        rw [← h.2.2]
        simp
      · split at h
        · simp_all
        · simp at h
          rw [← h.2.2]
  rw [if_neg h15] at h
  by_cases h16 : c = '<'
  · rw [if_pos h16] at h
    rcases rest with _ | ⟨r1, rtail⟩
    · simp at h
      rw [← h.2.2]
    · by_cases hr : r1 = '='
      · subst hr
        simp at h
        rw [← h.2.2]
        simp
      · split at h
        · simp_all
        · simp at h
          rw [← h.2.2]
  rw [if_neg h16] at h
  by_cases h17 : c = '>'
  · rw [if_pos h17] at h
    rcases rest with _ | ⟨r1, rtail⟩
    · simp at h
      rw [← h.2.2]
    · by_cases hr : r1 = '='
      · subst hr
        simp at h
        rw [← h.2.2]
        simp
      · split at h
        · simp_all
        · simp at h
          rw [← h.2.2]
  rw [if_neg h17] at h
  by_cases h18 : c.isDigit = true
  · rw [if_pos h18] at h
    rcases hsn : scanNum (c :: rest) false with _ | ⟨val, rest2⟩
    · rw [hsn] at h
      exact absurd h (by simp)
    · rw [hsn] at h
      simp at h
      unfold scanNum at hsn
      rw [if_pos h18] at hsn
      simp only [Option.map_eq_some'] at hsn
      obtain ⟨p, hp, hpe⟩ := hsn
      simp only [Prod.mk.injEq] at hpe
      rw [← h.2.2, ← hpe.2]
      exact scanNum_length _ _ _ _ hp
  rw [if_neg h18] at h
  by_cases h19 : c.isAlpha = true ∨ c = '_'
  · rw [if_pos h19] at h
    simp at h
    rw [← h.2.2]
    exact scanIdent_length rest
  rw [if_neg h19] at h
  exact absurd h (by simp)

/-- Joint progress bound for lex and lexComment, indexed by a length
budget: a token other than end-of-file strictly consumes input. -/
theorem lex_rest_aux (n : Nat) : ∀ (l : List Char) (line : Nat) (tok : Token)
    (rest : List Char) (line' : Nat), l.length ≤ n →
    ((lex l line = some (tok, rest, line') → ¬(tok.ttype = .Eof) →
        rest.length < l.length) ∧
      (lexComment l line = some (tok, rest, line') → ¬(tok.ttype = .Eof) →
        rest.length < l.length)) := by
  induction n with
  | zero =>
    intro l line tok rest line' hn
    cases l with
    | nil =>
      constructor
      · intro h hne
        unfold lex at h
        simp at h
        exact absurd (by rw [← h.1]) hne
      · intro h hne
        unfold lexComment at h
        simp at h
        exact absurd (by rw [← h.1]) hne
    | cons c rest0 => simp at hn
  | succ n ih =>
    intro l line tok rest line' hn
    cases l with
    | nil =>
      constructor
      · intro h hne
        unfold lex at h
        simp at h
        exact absurd (by rw [← h.1]) hne
      · intro h hne
        unfold lexComment at h
        simp at h
        exact absurd (by rw [← h.1]) hne
    | cons c rest0 =>
      have hb : rest0.length ≤ n := by simp at hn; omega
      constructor
      · intro h hne
        unfold lex at h
        split at h
        · have hlt := (ih rest0 line tok rest line' hb).2 h hne
          simp only [List.length_cons]
          omega
        · split at h
          · have hlt := (ih rest0 _ tok rest line' hb).1 h hne
            simp only [List.length_cons]
            omega
          · split at h
            · rename_i tt v rest2 heq
              simp at h
              have hle := lexStep_length heq
              simp only [List.length_cons]
              rw [h.2.1] at hle
              omega
            · exact absurd h (by simp)
            · have hlt := (ih rest0 line tok rest line' hb).1 h hne
              simp only [List.length_cons]
              omega
      · intro h hne
        unfold lexComment at h
        split at h
        · have hlt := (ih rest0 _ tok rest line' hb).1 h hne
          simp only [List.length_cons]
          omega
        · have hlt := (ih rest0 line tok rest line' hb).2 h hne
          simp only [List.length_cons]
          omega

/-- A token other than end-of-file strictly consumes input: the progress
fact behind termination of the driver loop in src/src/main.rs. -/
theorem lex_rest_lt {l : List Char} {line : Nat} {tok : Token}
    {rest : List Char} {line' : Nat}
    (h : lex l line = some (tok, rest, line')) (hne : ¬(tok.ttype = .Eof)) :
    rest.length < l.length :=
  (lex_rest_aux l.length l line tok rest line' (le_refl _)).1 h hne

/-- Any budget beyond the buffer length gives the same token sequence, so
lexAll is a faithful rendering of the unbounded driver loop. -/
theorem lexAllF_stable : ∀ (fuel fuel' : Nat) (l : List Char) (line : Nat),
    l.length < fuel → l.length < fuel' →
    lexAllF fuel l line = lexAllF fuel' l line := by
  intro fuel
  induction fuel with
  | zero =>
    intro fuel' l line h h'
    exact absurd h (Nat.not_lt_zero _)
  | succ fuel ih =>
    intro fuel' l line h h'
    cases fuel' with
    | zero => exact absurd h' (Nat.not_lt_zero _)
    | succ fuel' =>
      simp only [lexAllF]
      rcases hx : lex l line with _ | ⟨tok, rest, line'⟩
      · rfl
      · by_cases he : tok.ttype = .Eof
        · simp [he]
        · have hlt := lex_rest_lt hx he
          simp only [if_neg he]
          rw [ih fuel' rest line' (by omega) (by omega)]

/-- C7: the source input 1 + 2 * 3; lexes without failure and parses to
BinOpNode("+", Number(1), BinOpNode("*", Number(2), Number(3))):
multiplicative operators bind tighter than additive operators. -/
theorem c7_precedence :
    (lexAll ("1 + 2 * 3;".toList) 0).2 = true ∧
    parse_statement 40 (lexAll ("1 + 2 * 3;".toList) 0).1 0 =
      some (.ok (.BinOpNode "+" (.Number 1)
        (.BinOpNode "*" (.Number 2) (.Number 3))), 6) :=
  ⟨rfl, rfl⟩

/-- C1, evaluation at the claimed input: the if/elif/else program lexes
cleanly, but parse_statement returns an UnexpectedToken error built from the
stale block-loop snapshot (the token break on line 0) instead of the claimed
Ok IfElseNode, because parse_block re-tests only the token snapshot taken
before its loop and therefore re-parses a statement at the closing brace. -/
theorem c1_ifelse_eval :
    (lexAll ("if (true) \x7b break; \x7d elif (false) \x7b break; \x7d else \x7b break; \x7d".toList) 0).2 = true ∧
    parse_statement 40
      (lexAll ("if (true) \x7b break; \x7d elif (false) \x7b break; \x7d else \x7b break; \x7d".toList) 0).1 0 =
      some (.error (.UnexpectedToken "break" 0), 7) :=
  ⟨rfl, rfl⟩

/-- C5, evaluation: the lexer of src/src/lexer.rs has no import keyword, so
the program with the word import followed by a string literal lexes the word
as a plain identifier and statement parsing fails with UnexpectedToken on
the following token, never producing an ImportNode.  The parser side of the
claim is intact: fed a token of the (spec-modelled) Import category,
parse_statement produces ImportNode with the literal text, and fails when
the next token is not a string literal. -/
theorem c5_import_eval :
    lexAll ("import \"mod\"".toList) 0 =
      ([⟨.Iden, "import", 0⟩, ⟨.Str, "mod", 0⟩, ⟨.Eof, "", 0⟩], true) ∧
    parse_statement 40 [⟨.Iden, "import", 0⟩, ⟨.Str, "mod", 0⟩, ⟨.Eof, "", 0⟩] 0 =
      some (.error (.UnexpectedToken "mod" 0), 1) ∧
    parse_statement 40 [⟨.Import, "import", 0⟩, ⟨.Str, "mod", 0⟩, ⟨.Eof, "", 0⟩] 0 =
      some (.ok (.ImportNode "mod"), 2) ∧
    parse_statement 40 [⟨.Import, "import", 0⟩, ⟨.Num, "1", 0⟩, ⟨.Eof, "", 0⟩] 0 =
      some (.error (.UnexpectedToken "Invalid module string" 0), 1) :=
  ⟨rfl, rfl, rfl, rfl⟩

/-- C6, counterexample: the function definition fn f(3) with an empty body
parses successfully, with the number literal 3 accepted as the parameter
Identifier("3"); the claim that a non-identifier parameter is a parse
failure is false on the code. -/
theorem c6_counterexample :
    (lexAll ("fn f(3) \x7b\x7d".toList) 0).2 = true ∧
    parse_statement 40 (lexAll ("fn f(3) \x7b\x7d".toList) 0).1 0 =
      some (.ok (.FuncDef "f" [.Identifier "3"] []), 7) :=
  ⟨rfl, rfl⟩

/-- C3, counterexample: on the input with the unrecognized character at the
start, the lexer does not fail and does not stop; it silently skips the
character and produces the number token after it, then the end-of-file
token. -/
theorem c3_counterexample :
    lexAll ("@1".toList) 0 = ([⟨.Num, "1", 0⟩, ⟨.Eof, "", 0⟩], true) ∧
    lex ("@1".toList) 0 = some (⟨.Num, "1", 0⟩, [], 0) := by
  exact ⟨by decide, by decide⟩

/-- C4, counterexample: a string literal opened by a quote and reaching end
of buffer with no closing quote yields a Str token carrying the scanned
text, not a lexical failure. -/
theorem c4_counterexample :
    lex ("\"abc".toList) 0 = some (⟨.Str, "abc", 0⟩, [], 0) := by
  decide

/-- At the end-of-file token of the unterminated-block program,
parse_statement either runs out of fuel or returns Ok(Eof) without moving
the cursor. -/
theorem c2_stmt_at_10 (fuel : Nat) :
    parse_statement fuel c2toks 10 = none ∨
    parse_statement fuel c2toks 10 = some (.ok .Eof, 10) := by
  rcases fuel with _ | fuel
  · exact Or.inl rfl
  · exact Or.inr rfl

/-- The block loop of the unterminated-block program never returns once the
cursor sits on the end-of-file token: each iteration re-parses Ok(Eof)
without consuming and recurses. -/
theorem c2_blockloop_at_10 : ∀ (fuel : Nat) (acc : List ASTNode),
    parse_block_loop fuel c2toks .Let "let" 0 10 acc = none := by
  intro fuel
  induction fuel with
  | zero => intro acc; rfl
  | succ fuel ih =>
    intro acc
    rcases c2_stmt_at_10 fuel with h | h
    · simp [parse_block_loop, h]
    · simp [parse_block_loop, h, ih]

/-- At the let statement of the unterminated-block program, parse_statement
either runs out of fuel or parses the variable declaration and stops at the
end-of-file token. -/
theorem c2_stmt_at_5 (fuel : Nat) :
    parse_statement fuel c2toks 5 = none ∨
    parse_statement fuel c2toks 5 =
      some (.ok (.VarDecNode "x" (.Number 1)), 10) := by
  rcases fuel with _ | fuel
  · exact Or.inl rfl
  rcases fuel with _ | fuel
  · exact Or.inl rfl
  rcases fuel with _ | fuel
  · exact Or.inl rfl
  rcases fuel with _ | fuel
  · exact Or.inl rfl
  rcases fuel with _ | fuel
  · exact Or.inl rfl
  rcases fuel with _ | fuel
  · exact Or.inl rfl
  rcases fuel with _ | fuel
  · exact Or.inl rfl
  rcases fuel with _ | fuel
  · exact Or.inl rfl
  exact Or.inr rfl

/-- The block loop of the unterminated-block program never returns when
started at its first statement. -/
theorem c2_blockloop_at_5 : ∀ (fuel : Nat) (acc : List ASTNode),
    parse_block_loop fuel c2toks .Let "let" 0 5 acc = none := by
  intro fuel acc
  rcases fuel with _ | fuel
  · rfl
  rcases c2_stmt_at_5 fuel with h | h
  · simp [parse_block_loop, h]
  · simp [parse_block_loop, h, c2_blockloop_at_10]

/-- C2: the program fn f() with an unterminated block lexes cleanly, and on
its token sequence parse_statement returns no result at any fuel bound: the
source loops forever (parse_block tests a stale token snapshot in its loop
condition and parse_statement yields Ok(Eof) at end of input without
consuming), so block parsing neither terminates nor reports the claimed
UnterminatedBlock error, which is unreachable. -/
theorem c2_unterminated_block_diverges :
    lexAll ("fn f() \x7b let x = 1;".toList) 0 = (c2toks, true) ∧
    ∀ fuel : Nat, parse_statement fuel c2toks 0 = none := by
  refine ⟨by decide, ?_⟩
  intro fuel
  rcases fuel with _ | fuel
  · rfl
  rcases fuel with _ | fuel
  · rfl
  rcases fuel with _ | fuel
  · rfl
  have hb := c2_blockloop_at_5 fuel []
  simp only [c2toks] at hb
  simp only [parse_statement, parse_func_def, parse_args_def, parse_block,
    currentT, consume, c2toks]
  simp [hb]

/-- C3, amended: a character recognized by no branch of the scan is
silently skipped; lexing continues from the next character as if the
skipped character were not there, and no failure is reported for it. -/
theorem c3_amended (c : Char) (rest : List Char) (line : Nat)
    (h : ¬ recognizedChar c) : lex (c :: rest) line = lex rest line := by
  unfold recognizedChar at h
  push_neg at h
  obtain ⟨h1, h2, h3, h4, h5, h6, h7, h8, h9, h10, h11, h12, h13, h14, h15,
    h16, h17, h18, h19, h20, h21, h22⟩ := h
  have hstep : lexStep c rest = .skip := by
    unfold lexStep
    rw [if_neg h3, if_neg h4, if_neg h5, if_neg h6, if_neg h7, if_neg h8,
      if_neg h9, if_neg h10, if_neg h11, if_neg h12, if_neg h13, if_neg h14,
      if_neg h15, if_neg h16, if_neg h17, if_neg h18, if_neg h19]
    rw [if_neg (by simp [h20]), if_neg (by simp [h21, h22])]
  rw [lex.eq_def]
  simp only []
  rw [if_neg h1, if_neg (by simp [h2]), hstep]

/-- C3, witness at the unrecognized character. -/
theorem c3_amended_witness :
    ¬ recognizedChar '@' ∧ lex ['@'] 0 = lex [] 0 :=
  ⟨by decide, c3_amended '@' [] 0 (by decide)⟩

/-- C6, amended: inside a parameter list, any token whose kind is not the
closing parenthesis is accepted and pushed as an Identifier of its text,
with no check that it is an identifier token; and an empty parenthesis pair
yields a FuncDef with an empty argument sequence (shown on fn f() with an
empty body). -/
theorem c6_amended :
    (∀ (a t c : Token) (rest : List Token) (fuel : Nat),
        ¬(t.ttype = TokenType.Cpt) → c.ttype = TokenType.Cpt →
        parse_args_def (fuel + 2) (a :: t :: c :: rest) 0 =
          some (.ok (some [ASTNode.Identifier t.value]), 3)) ∧
    (lexAll ("fn f() \x7b\x7d".toList) 0).2 = true ∧
    parse_statement 40 (lexAll ("fn f() \x7b\x7d".toList) 0).1 0 =
      some (.ok (.FuncDef "f" [] []), 6) := by
  refine ⟨?_, rfl, rfl⟩
  intro a t c rest fuel ht hc
  have h0 : consume (a :: t :: c :: rest) 0 = 1 := by
    unfold consume
    rw [if_pos (by simp only [List.length_cons]; omega)]
  have h1 : consume (a :: t :: c :: rest) 1 = 2 := by
    unfold consume
    rw [if_pos (by simp only [List.length_cons]; omega)]
  have h2 : consume (a :: t :: c :: rest) 2 = 3 := by
    unfold consume
    rw [if_pos (by simp only [List.length_cons]; omega)]
  simp [parse_args_def, parse_args_def_loop, currentT, h0, h1, h2, ht, hc]

/-- C6, witness: the number literal 3 in parameter position is accepted as
the argument Identifier("3"). -/
theorem c6_amended_witness :
    ¬((⟨TokenType.Num, "3", 0⟩ : Token).ttype = TokenType.Cpt) ∧
    parse_args_def 3 [⟨.Opt, "(", 0⟩, ⟨.Num, "3", 0⟩, ⟨.Cpt, ")", 0⟩] 0 =
      some (.ok (some [ASTNode.Identifier "3"]), 3) :=
  ⟨by decide, c6_amended.1 ⟨.Opt, "(", 0⟩ ⟨.Num, "3", 0⟩ ⟨.Cpt, ")", 0⟩ [] 1
    (by decide) rfl⟩

/-- C9: after a let token, the parser takes the very next token's text as
the variable name and skips the token after that without checking either of
them; whenever the remaining tokens parse as a semicolon-terminated
expression, a VarDecNode is returned. -/
theorem c9_let_unchecked (t0 t1 t2 : Token) (rest : List Token) (fuel : Nat)
    (v : ASTNode) (p : Nat)
    (h0 : t0.ttype = TokenType.Let)
    (h : parse_expr fuel (t0 :: t1 :: t2 :: rest) 3 true = some (.ok v, p)) :
    parse_statement (fuel + 2) (t0 :: t1 :: t2 :: rest) 0 =
      some (.ok (.VarDecNode t1.value v), p) := by
  have hc0 : consume (t0 :: t1 :: t2 :: rest) 0 = 1 := by
    unfold consume
    rw [if_pos (by simp only [List.length_cons]; omega)]
  have hc1 : consume (t0 :: t1 :: t2 :: rest) 1 = 2 := by
    unfold consume
    rw [if_pos (by simp only [List.length_cons]; omega)]
  have hc2 : consume (t0 :: t1 :: t2 :: rest) 2 = 3 := by
    unfold consume
    rw [if_pos (by simp only [List.length_cons]; omega)]
  simp [parse_statement, parse_var_def, currentT, h0, hc0, hc1, hc2, h]

/-- C9, witness: let x + 5; parses to VarDecNode with name x and value
Number(5) although no equals sign is present. -/
theorem c9_let_unchecked_witness :
    (⟨TokenType.Let, "let", 0⟩ : Token).ttype = TokenType.Let ∧
    parse_expr 10
      [⟨.Let, "let", 0⟩, ⟨.Iden, "x", 0⟩, ⟨.Add, "+", 0⟩, ⟨.Num, "5", 0⟩,
       ⟨.Scln, ";", 0⟩, ⟨.Eof, "", 0⟩] 3 true = some (.ok (.Number 5), 5) ∧
    parse_statement 12
      [⟨.Let, "let", 0⟩, ⟨.Iden, "x", 0⟩, ⟨.Add, "+", 0⟩, ⟨.Num, "5", 0⟩,
       ⟨.Scln, ";", 0⟩, ⟨.Eof, "", 0⟩] 0 =
      some (.ok (.VarDecNode "x" (.Number 5)), 5) :=
  ⟨rfl, rfl, c9_let_unchecked _ _ _ _ 10 _ _ rfl rfl⟩

/-- Invariant of the fuel-indexed driver loop: whenever it reports a clean
finish, the collected sequence is nonempty, ends in the end-of-file token,
and contains no other end-of-file token. -/
theorem c8_aux : ∀ (fuel : Nat) (l : List Char) (line : Nat) (toks : List Token),
    lexAllF fuel l line = (toks, true) →
    toks ≠ [] ∧ toks.getLast?.map Token.ttype = some TokenType.Eof ∧
      toks.countP (fun t => decide (t.ttype = TokenType.Eof)) = 1 := by
  intro fuel
  induction fuel with
  | zero =>
    intro l line toks h
    simp [lexAllF] at h
  | succ fuel ih =>
    intro l line toks h
    simp only [lexAllF] at h
    rcases hx : lex l line with _ | ⟨tok, rest, line'⟩ <;> simp only [hx] at h
    · simp at h
    · by_cases he : tok.ttype = .Eof
      · rw [if_pos he] at h
        simp only [Prod.mk.injEq] at h
        rw [← h.1]
        refine ⟨by simp, by simp [he], ?_⟩
        simp [List.countP_cons, he]
      · rw [if_neg he] at h
        simp only [Prod.mk.injEq] at h
        obtain ⟨h1, h2⟩ := h
        have hts : lexAllF fuel rest line' = ((lexAllF fuel rest line').1, true) := by
          rw [← h2]
        have ihh := ih rest line' (lexAllF fuel rest line').1 hts
        rw [← h1]
        refine ⟨by simp, ?_, ?_⟩
        · rcases hc : (lexAllF fuel rest line').1 with _ | ⟨a, as⟩
          · exact absurd hc ihh.1
          · rw [List.getLast?_cons_cons]
            rw [hc] at ihh
            exact ihh.2.1
        · simp only [List.countP_cons]
          simp [he, ihh.2.2]

/-- C8: for every source input on which lexing never fails (the driver loop
finishes cleanly), the materialized token sequence handed to the parser is
nonempty, its last element is the end-of-file token, and the end-of-file
token occurs exactly once in it. -/
theorem c8_eof_invariant (l : List Char) (toks : List Token)
    (h : lexAll l 0 = (toks, true)) :
    toks ≠ [] ∧ toks.getLast?.map Token.ttype = some TokenType.Eof ∧
      toks.countP (fun t => decide (t.ttype = TokenType.Eof)) = 1 :=
  c8_aux (l.length + 1) l 0 toks h

/-- C8, witness at the two-token program. -/
theorem c8_eof_invariant_witness :
    lexAll ("1;".toList) 0 =
      ([⟨.Num, "1", 0⟩, ⟨.Scln, ";", 0⟩, ⟨.Eof, "", 0⟩], true) ∧
    (([⟨.Num, "1", 0⟩, ⟨.Scln, ";", 0⟩, ⟨.Eof, "", 0⟩] : List Token) ≠ [] ∧
      ([⟨.Num, "1", 0⟩, ⟨.Scln, ";", 0⟩, ⟨.Eof, "", 0⟩] : List Token).getLast?.map
        Token.ttype = some TokenType.Eof ∧
      ([⟨.Num, "1", 0⟩, ⟨.Scln, ";", 0⟩, ⟨.Eof, "", 0⟩] : List Token).countP
        (fun t => decide (t.ttype = TokenType.Eof)) = 1) :=
  ⟨by decide, c8_eof_invariant ("1;".toList) _ (by decide)⟩

/-- The keyword table never classifies a word as a numeric literal. -/
theorem keywordType_ne_num (s : String) : ¬ keywordType s = TokenType.Num := by
  intro h
  unfold keywordType at h
  by_cases k1 : s = "loop"
  · rw [if_pos k1] at h
    simp at h
  rw [if_neg k1] at h
  by_cases k2 : s = "if"
  · rw [if_pos k2] at h
    simp at h
  rw [if_neg k2] at h
  by_cases k3 : s = "elif"
  · rw [if_pos k3] at h
    simp at h
  rw [if_neg k3] at h
  by_cases k4 : s = "else"
  · rw [if_pos k4] at h
    simp at h
  rw [if_neg k4] at h
  by_cases k5 : s = "true"
  · rw [if_pos k5] at h
    simp at h
  rw [if_neg k5] at h
  by_cases k6 : s = "false"
  · rw [if_pos k6] at h
    simp at h
  rw [if_neg k6] at h
  by_cases k7 : s = "break"
  · rw [if_pos k7] at h
    simp at h
  rw [if_neg k7] at h
  by_cases k8 : s = "return"
  · rw [if_pos k8] at h
    simp at h
  rw [if_neg k8] at h
  by_cases k9 : s = "fn"
  · rw [if_pos k9] at h
    simp at h
  rw [if_neg k9] at h
  by_cases k10 : s = "and"
  · rw [if_pos k10] at h
    simp at h
  rw [if_neg k10] at h
  by_cases k11 : s = "or"
  · rw [if_pos k11] at h
    simp at h
  rw [if_neg k11] at h
  by_cases k12 : s = "let"
  · rw [if_pos k12] at h
    simp at h
  rw [if_neg k12] at h
  by_cases k13 : s = "i8"
  · rw [if_pos k13] at h
    simp at h
  rw [if_neg k13] at h
  by_cases k14 : s = "i16"
  · rw [if_pos k14] at h
    simp at h
  rw [if_neg k14] at h
  by_cases k15 : s = "i32"
  · rw [if_pos k15] at h
    simp at h
  rw [if_neg k15] at h
  by_cases k16 : s = "i64"
  · rw [if_pos k16] at h
    simp at h
  rw [if_neg k16] at h
  by_cases k17 : s = "f32"
  · rw [if_pos k17] at h
    simp at h
  rw [if_neg k17] at h
  by_cases k18 : s = "const"
  · rw [if_pos k18] at h
    simp at h
  rw [if_neg k18] at h
  by_cases k19 : s = "tensor"
  · rw [if_pos k19] at h
    simp at h
  rw [if_neg k19] at h
  simp at h

/-- A Num token can only come from the digit branch of the dispatch: its
text is exactly a successful scanNum run begun at a digit. -/
theorem lexStep_num {c : Char} {rest : List Char} {v : String}
    {rest' : List Char}
    (h : lexStep c rest = .tok TokenType.Num v rest') :
    c.isDigit = true ∧ ∃ val, scanNum (c :: rest) false = some (val, rest') ∧
      v = String.mk val := by
  unfold lexStep at h
  by_cases h1 : c = '+'
  · rw [if_pos h1] at h
    simp at h
  rw [if_neg h1] at h
  by_cases h2 : c = '-'
  · rw [if_pos h2] at h
    simp at h
  rw [if_neg h2] at h
  by_cases h3 : c = '*'
  · rw [if_pos h3] at h
    simp at h
  rw [if_neg h3] at h
  by_cases h4 : c = '/'
  · rw [if_pos h4] at h
    simp at h
  rw [if_neg h4] at h
  by_cases h5 : c = '%'
  · rw [if_pos h5] at h
    simp at h
  rw [if_neg h5] at h
  by_cases h6 : c = '('
  · rw [if_pos h6] at h
    simp at h
  rw [if_neg h6] at h
  by_cases h7 : c = ')'
  · rw [if_pos h7] at h
    simp at h
  rw [if_neg h7] at h
  by_cases h8 : c = '\x7b'
  · rw [if_pos h8] at h
    simp at h
  rw [if_neg h8] at h
  by_cases h9 : c = '\x7d'
  · rw [if_pos h9] at h
    simp at h
  rw [if_neg h9] at h
  by_cases h10 : c = '['
  · rw [if_pos h10] at h
    simp at h
  rw [if_neg h10] at h
  by_cases h11 : c = ']'
  · rw [if_pos h11] at h
    simp at h
  rw [if_neg h11] at h
  by_cases h12 : c = ','
  · rw [if_pos h12] at h
    simp at h
  rw [if_neg h12] at h
  by_cases h13 : c = ';'
  · rw [if_pos h13] at h
    simp at h
  rw [if_neg h13] at h
  by_cases h14 : c = '\"'
  · rw [if_pos h14] at h
    rcases hsc : scanString rest with _ | ⟨lit, rest2⟩ <;> rw [hsc] at h <;> simp at h
  rw [if_neg h14] at h
  by_cases h15 : c = '='
  · rw [if_pos h15] at h
    split at h <;> simp at h
  rw [if_neg h15] at h
  by_cases h16 : c = '<'
  · rw [if_pos h16] at h
    split at h <;> simp at h
  rw [if_neg h16] at h
  by_cases h17 : c = '>'
  · rw [if_pos h17] at h
    split at h <;> simp at h
  rw [if_neg h17] at h
  by_cases h18 : c.isDigit = true
  · rw [if_pos h18] at h
    rcases hsn : scanNum (c :: rest) false with _ | ⟨val, rest2⟩ <;> rw [hsn] at h
    · simp at h
    · simp at h
      refine ⟨h18, val, ?_, h.1.symm⟩
      rw [h.2]
  rw [if_neg h18] at h
  by_cases h19 : c.isAlpha = true ∨ c = '_'
  · rw [if_pos h19] at h
    simp at h
    exact absurd h.1 (keywordType_ne_num _)
  rw [if_neg h19] at h
  simp at h

/-- Shape of a successful numeric scan: every collected character is a digit
or a dot, and the number of dots plus the dots already seen is at most
one. -/
theorem scanNum_shape : ∀ (l : List Char) (float : Bool) (val rem : List Char),
    scanNum l float = some (val, rem) →
    (∀ x ∈ val, x.isDigit = true ∨ x = '.') ∧
      val.count '.' + (if float = true then 1 else 0) ≤ 1 := by
  intro l
  induction l with
  | nil =>
    intro float val rem h
    simp [scanNum] at h
    obtain ⟨h1, h2⟩ := h
    subst h1
    refine ⟨by simp, ?_⟩
    simp only [List.count_nil]
    split <;> omega
  | cons c rest ih =>
    intro float val rem h
    unfold scanNum at h
    split at h
    · rename_i hd
      simp only [Option.map_eq_some'] at h
      obtain ⟨p, hp, hpe⟩ := h
      simp only [Prod.mk.injEq] at hpe
      obtain ⟨ihall, ihcnt⟩ := ih float p.1 p.2 (by rw [hp])
      rw [← hpe.1]
      have hcd : ¬(c = '.') := by
        intro e
        rw [e] at hd
        simp at hd
      constructor
      · intro x hx
        rcases List.mem_cons.mp hx with rfl | hx
        · exact Or.inl hd
        · exact ihall x hx
      · rw [List.count_cons_of_ne (fun e => hcd e.symm)]
        exact ihcnt
    · split at h
      · split at h
        · simp at h
        · rename_i hnd hdot hfl
          simp only [Option.map_eq_some'] at h
          obtain ⟨p, hp, hpe⟩ := h
          simp only [Prod.mk.injEq] at hpe
          obtain ⟨ihall, ihcnt⟩ := ih true p.1 p.2 (by rw [hp])
          rw [← hpe.1]
          constructor
          · intro x hx
            rcases List.mem_cons.mp hx with rfl | hx
            · exact Or.inr rfl
            · exact ihall x hx
          · rw [List.count_cons_self]
            simp only [hfl]
            simp at ihcnt ⊢
            omega
      · simp at h
        obtain ⟨h1, h2⟩ := h
        subst h1
        refine ⟨by simp, ?_⟩
        simp only [List.count_nil]
        split <;> omega

/-- Joint budgeted induction for lex and lexComment: every Num token either
function produces has as its text a nonempty run that starts with a digit,
contains only digits and dots, and has at most one dot. -/
theorem lex_num_aux (n : Nat) : ∀ (l : List Char) (line : Nat) (tok : Token)
    (rest : List Char) (line' : Nat), l.length ≤ n →
    ((lex l line = some (tok, rest, line') → tok.ttype = TokenType.Num →
        (∃ c cs, tok.value.data = c :: cs ∧ c.isDigit = true) ∧
        (∀ x ∈ tok.value.data, x.isDigit = true ∨ x = '.') ∧
        tok.value.data.count '.' ≤ 1) ∧
      (lexComment l line = some (tok, rest, line') → tok.ttype = TokenType.Num →
        (∃ c cs, tok.value.data = c :: cs ∧ c.isDigit = true) ∧
        (∀ x ∈ tok.value.data, x.isDigit = true ∨ x = '.') ∧
        tok.value.data.count '.' ≤ 1)) := by
  induction n with
  | zero =>
    intro l line tok rest line' hn
    cases l with
    | nil =>
      constructor
      · intro h hnum
        unfold lex at h
        simp at h
        rw [← h.1] at hnum
        simp at hnum
      · intro h hnum
        unfold lexComment at h
        simp at h
        rw [← h.1] at hnum
        simp at hnum
    | cons c rest0 => simp at hn
  | succ n ih =>
    intro l line tok rest line' hn
    cases l with
    | nil =>
      constructor
      · intro h hnum
        unfold lex at h
        simp at h
        rw [← h.1] at hnum
        simp at hnum
      · intro h hnum
        unfold lexComment at h
        simp at h
        rw [← h.1] at hnum
        simp at hnum
    | cons c rest0 =>
      have hb : rest0.length ≤ n := by simp at hn; omega
      constructor
      · intro h hnum
        unfold lex at h
        split at h
        · exact (ih rest0 line tok rest line' hb).2 h hnum
        · split at h
          · exact (ih rest0 _ tok rest line' hb).1 h hnum
          · split at h
            · rename_i tt v rest2 heq
              simp at h
              rw [← h.1] at hnum ⊢
              simp at hnum
              subst hnum
              obtain ⟨hd, val, hsn, hv⟩ := lexStep_num heq
              have hval : ∃ p, scanNum rest0 false = some p ∧ val = c :: p.1 := by
                unfold scanNum at hsn
                rw [if_pos hd] at hsn
                simp only [Option.map_eq_some'] at hsn
                obtain ⟨p, hp, hpe⟩ := hsn
                simp only [Prod.mk.injEq] at hpe
                exact ⟨p, hp, hpe.1.symm⟩
              obtain ⟨p, hp, hvalc⟩ := hval
              have hshape := scanNum_shape (c :: rest0) false val rest2 hsn
              subst hv
              refine ⟨⟨c, p.1, ?_, hd⟩, ?_, ?_⟩
              · simp [hvalc]
              · simpa using hshape.1
              · have hc2 := hshape.2
                simp at hc2
                simpa using hc2
            · simp at h
            · exact (ih rest0 line tok rest line' hb).1 h hnum
      · intro h hnum
        unfold lexComment at h
        split at h
        · exact (ih rest0 _ tok rest line' hb).1 h hnum
        · exact (ih rest0 line tok rest line' hb).2 h hnum

/-- The first character surviving dropWhile falsifies the predicate. -/
theorem dropWhile_head_false {p : Char → Bool} : ∀ (l : List Char) (c : Char)
    (cs : List Char), l.dropWhile p = c :: cs → p c = false := by
  intro l
  induction l with
  | nil => intro c cs h; simp at h
  | cons a as ih =>
    intro c cs h
    rw [List.dropWhile_cons] at h
    split at h
    · exact ih c cs h
    · rename_i ha
      obtain ⟨h1, h2⟩ := List.cons.injEq a as c cs ▸ h
      rw [← h1]
      simpa using ha

/-- A nonempty digit-led run of digits with at most one dot is accepted by
the modelled float conversion. -/
theorem parseSimpleFloat_of_shape (s : String)
    (h1 : ∃ c cs, s.data = c :: cs ∧ c.isDigit = true)
    (h2 : ∀ x ∈ s.data, x.isDigit = true ∨ x = '.')
    (h3 : s.data.count '.' ≤ 1) :
    ∃ q, parseSimpleFloat s = some q := by
  unfold parseSimpleFloat
  obtain ⟨c, cs, hd, hc⟩ := h1
  have hip : ¬(s.data.takeWhile Char.isDigit = []) := by
    rw [hd, List.takeWhile_cons, if_pos hc]
    simp
  rw [if_neg hip]
  rcases hrest : s.data.dropWhile Char.isDigit with _ | ⟨c0, frac⟩
  · exact ⟨_, rfl⟩
  · have hc0 : c0.isDigit = false := dropWhile_head_false s.data c0 frac hrest
    have hc0mem : c0 ∈ s.data := by
      have hm : c0 ∈ s.data.dropWhile Char.isDigit := by
        rw [hrest]
        simp
      exact (List.dropWhile_sublist Char.isDigit).subset hm
    have hdot : c0 = '.' := by
      rcases h2 c0 hc0mem with hx | hx
      · rw [hx] at hc0
        simp at hc0
      · exact hx
    subst hdot
    have hsplit : s.data.takeWhile Char.isDigit ++ '.' :: frac = s.data := by
      rw [← hrest]
      exact List.takeWhile_append_dropWhile _ _
    have hct : (s.data.takeWhile Char.isDigit).count '.' = 0 := by
      rw [List.count_eq_zero]
      intro hmem
      have := List.mem_takeWhile_imp hmem
      simp at this
    have hcf : frac.count '.' = 0 := by
      have hca : s.data.count '.' =
          (s.data.takeWhile Char.isDigit).count '.' + ('.' :: frac).count '.' := by
        rw [← hsplit, List.count_append]
        rw [hsplit]
      rw [List.count_cons_self, hct] at hca
      omega
    have hall : frac.all Char.isDigit = true := by
      rw [List.all_eq_true]
      intro x hx
      have hm : x ∈ s.data := by
        rw [← hsplit]
        simp [hx]
      rcases h2 x hm with hd2 | hd2
      · exact hd2
      · subst hd2
        exact absurd (List.count_eq_zero.mp hcf) (by simp [hx])
    simp only [hall, if_pos rfl, if_true]
    exact ⟨_, rfl⟩

/-- C10: every token of kind Num the lexer produces has a lexeme that the
string-to-f64 conversion accepts, so the unwrap_or_default fallback of
parse_factor is unreachable: parse_factor turns the token into the Number
node of the converted value, never silently into Number(0.0) for an
unparseable lexeme. -/
theorem c10_num_safe (l : List Char) (line : Nat) (tok : Token)
    (rest : List Char) (line' : Nat)
    (h : lex l line = some (tok, rest, line'))
    (hn : tok.ttype = TokenType.Num) :
    ∃ q : ℚ, parseSimpleFloat tok.value = some q ∧
      parse_factor 1 [tok] 0 = some (.ok (ASTNode.Number q), 1) := by
  have hs := (lex_num_aux l.length l line tok rest line' (le_refl _)).1 h hn
  obtain ⟨q, hq⟩ := parseSimpleFloat_of_shape tok.value hs.1 hs.2.1 hs.2.2
  refine ⟨q, hq, ?_⟩
  obtain ⟨tt, v, ln⟩ := tok
  simp at hn
  subst hn
  simp [parse_factor, currentT, consume, hq]

/-- C10, witness at a fractional literal. -/
theorem c10_num_safe_witness :
    lex ("12.5;".toList) 0 = some (⟨.Num, "12.5", 0⟩, [';'], 0) ∧
    ∃ q : ℚ, parseSimpleFloat "12.5" = some q ∧
      parse_factor 1 [⟨.Num, "12.5", 0⟩] 0 = some (.ok (ASTNode.Number q), 1) :=
  ⟨by decide, c10_num_safe ("12.5;".toList) 0 ⟨.Num, "12.5", 0⟩ [';'] 0
    (by decide) rfl⟩

/-- Full characterization of the source string scan by the spec-worded
outcome classification, with a length budget for the two-character escape
step: the scan succeeds with the collected text and remaining characters
when the spec closes or runs out of buffer, and returns the failure None
exactly when the spec fails. -/
theorem scanString_spec_aux (n : Nat) : ∀ s : List Char, s.length ≤ n →
    scanString s = (match strScanSpec s with
      | .closed lit rem => some (lit, rem)
      | .unterminated lit => some (lit, [])
      | .failed => none) := by
  induction n with
  | zero =>
    intro s hn
    cases s with
    | nil => rfl
    | cons c rest => simp at hn
  | succ n ih =>
    intro s hn
    cases s with
    | nil => rfl
    | cons c rest =>
      unfold scanString strScanSpec
      by_cases h1 : c = '\"'
      · simp [h1]
      by_cases h2 : c = '\\'
      · simp only [if_neg h1, if_pos h2]
        cases rest with
        | nil => rfl
        | cons e rest' =>
          have ihr := ih rest' (by simp at hn; omega)
          by_cases he1 : e = '\"'
          · simp only [if_pos he1]
            rw [ihr]
            rcases strScanSpec rest' with ⟨l1, r1⟩ | l1 | _ <;> rfl
          by_cases he2 : e = 'n'
          · simp only [if_neg he1, if_pos he2]
            rw [ihr]
            rcases strScanSpec rest' with ⟨l1, r1⟩ | l1 | _ <;> rfl
          by_cases he3 : e = '\\'
          · simp only [if_neg he1, if_neg he2, if_pos he3]
            rw [ihr]
            rcases strScanSpec rest' with ⟨l1, r1⟩ | l1 | _ <;> rfl
          simp only [if_neg he1, if_neg he2, if_neg he3]
      · simp only [if_neg h1, if_neg h2]
        have ihr := ih rest (by simp at hn; omega)
        rw [ihr]
        rcases strScanSpec rest with ⟨l1, r1⟩ | l1 | _ <;> rfl

/-- C4, amended: every string literal whose scan reaches the end of the
buffer before an unescaped closing quote (escape sequences in the body
included) lexes to a Str token carrying the unescaped text scanned so far,
with no lexical failure reported; and the scan fails exactly when it meets
a backslash at the end of the buffer or an unsupported escape character. -/
theorem c4_amended : ∀ (s : List Char) (line : Nat),
    (∀ lit, strScanSpec s = .unterminated lit →
      lex ('\"' :: s) line = some (⟨.Str, String.mk lit, line⟩, [], line)) ∧
    (scanString s = none ↔ strScanSpec s = .failed) := by
  intro s line
  have hchar := scanString_spec_aux s.length s (le_refl _)
  constructor
  · intro lit hu
    have hs : scanString s = some (lit, []) := by rw [hchar, hu]
    have hstep : lexStep '\"' s = .tok .Str (String.mk lit) [] := by
      unfold lexStep
      rw [hs]
      rfl
    rw [lex.eq_def]
    simp only []
    rw [if_neg (by decide), if_neg (by decide), hstep]
  · constructor
    · intro hn
      rw [hchar] at hn
      rcases hx : strScanSpec s with ⟨l1, r1⟩ | l1 | _
      · rw [hx] at hn
        simp at hn
      · rw [hx] at hn
        simp at hn
      · rfl
    · intro hf
      rw [hchar, hf]

/-- C4, witness: the unterminated literal whose body holds a valid newline
escape lexes to the Str token with the unescaped text, and for the
lone-backslash body the scan failure coincides with the spec-worded
failure. -/
theorem c4_amended_witness :
    strScanSpec ("a\\n b".toList) = .unterminated ['a', '\n', ' ', 'b'] ∧
    lex ('\"' :: "a\\n b".toList) 0 =
      some (⟨.Str, String.mk ['a', '\n', ' ', 'b'], 0⟩, [], 0) ∧
    (scanString ['\\'] = none ↔ strScanSpec ['\\'] = .failed) :=
  ⟨by decide, (c4_amended ("a\\n b".toList) 0).1 ['a', '\n', ' ', 'b'] (by decide),
    (c4_amended ['\\'] 0).2⟩
